import Mathlib

/-!
Verification model of the token acquisition and caching layer and the
authenticated request-execution path of the go-mpesa SDK.

The model is a shallow embedding of the Go package `Abstracts`:

* `TokenManager` (file with `GetToken`, `getCachedToken`, `requestNewToken`,
  `cacheToken`, `ClearCache`; the draft carrying the mutex, the 60-second
  buffer policy, the tolerant `expires_in` parsing with the 300-second
  fallback, and the atomic temp-file-and-rename persistence), and
* `ApiClient` (file with `ExecuteRequest` and `sendRequest`; the draft
  carrying the single 401 retry and the pending-transaction sentinel).

Modelling choices:

* The clock is an explicit `now : Int` (Unix seconds); every Go call to
  `time.Now().Unix()` inside one operation is the same `now`.
* The cache file is `FileContent`: `missing` (a failing `os.ReadFile`,
  i.e. absent or unreadable), `badJson` (bytes that `json.Unmarshal`
  rejects), or `record c` (a decodable `tokenCache` record).  The cache
  file name is derived by `EncryptedCacheFileName`, a pure function of
  consumer key and secret (AES-256-CBC with a constant key and IV, then
  base64); two managers built from the same configuration therefore share
  one path, which the model renders by letting them share one
  `FileContent`.  Writes in `cacheToken` are modelled as succeeding (the
  atomic temp-file path); its fallback branches write the same bytes.
* The remote authority's answer to one acquisition attempt is an
  `AuthorityReply`; the token endpoint body is decoded into the
  `tokenResponse` shape (`access_token`, `expires_in` as a string) or is
  `undecodable` (invalid JSON, or fields of the wrong JSON type).
* The mutex `tm.mu` serialises every `GetToken`/`ClearCache` body, so a
  set of concurrent callers executes as some sequence of whole bodies;
  `GetTokenRuns` is that sequential composition.
* `sendRequest` consumes one `HttpResult` per POST attempt; the decoded
  response map is abstracted to the one field the control flow inspects
  (`errorMessage`).  The payload is the already-serialised JSON string,
  so the `json.Marshal` and `http.NewRequest` failure branches (which
  depend only on the payload value and the URL) are not reachable in the
  model.  Instrumentation fields (`sends`, `invalidations`,
  `acquisitions`) record the externally visible actions of one call.
-/

namespace GoMpesa

/-- The cached token record, Go struct `tokenCache`
(fields `token`, `expires_at`, `created_at`, Unix seconds). -/
structure tokenCache where
  token : String
  expiresAt : Int
  createdAt : Int
deriving Repr, DecidableEq

/-- Observable content of the token cache file at the manager's `CachePath`. -/
inductive FileContent where
  | missing
  | badJson
  | record (c : tokenCache)
deriving Repr, DecidableEq

/-- The mutable state owned by a `TokenManager`: the in-memory cache
`tm.memCache` and the persisted cache file. -/
structure TokenManagerState where
  memCache : Option tokenCache
  file : FileContent
deriving Repr, DecidableEq

/-- Decoded body of the authority's token response, Go struct
`tokenResponse`: `access_token` and `expires_in` (a numeric string). -/
inductive AuthorityBody where
  | undecodable
  | fields (accessToken : String) (expiresIn : String)
deriving Repr, DecidableEq

/-- Outcome of the HTTP GET against the token endpoint. -/
inductive AuthorityReply where
  | transportError
  | response (status : Nat) (body : AuthorityBody)
deriving Repr, DecidableEq

/-- Classified errors returned by the token manager
(`requestNewToken` error returns, in source order). -/
inductive TokenError where
  | transport
  | non200 (status : Nat)
  | decodeFailed
  | emptyToken
deriving Repr, DecidableEq

/-- Result of `GetToken` / `requestNewToken`, Go pair `(string, error)`. -/
inductive TokenResult where
  | ok (token : String)
  | error (e : TokenError)
deriving Repr, DecidableEq

/-- One decimal digit, as accepted by `strconv.ParseInt` with base 10. -/
def digitVal (c : Char) : Option Nat :=
  if ('0' ≤ c ∧ c ≤ '9') then some (c.toNat - Char.toNat '0') else none

/-- Value of a nonempty all-digit run; `none` on an empty run or any
non-digit character. -/
def decDigits (cs : List Char) : Option Nat :=
  match cs with
  | [] => none
  | _ =>
    cs.foldl
      (fun acc c =>
        match acc, digitVal c with
        | some n, some d => some (n * 10 + d)
        | _, _ => none)
      (some 0)

/-- Go `strconv.ParseInt(s, 10, 64)`, as used on `expires_in`: an optional
sign, then a nonempty run of decimal digits, with the value required to fit
in a signed 64-bit integer.  `none` stands for a non-nil Go error (both
`ErrSyntax` and `ErrRange`, since the caller only tests `err != nil`). -/
def parseInt64 (s : String) : Option Int :=
  match s.data with
  | [] => none
  | c :: cs =>
    let signed : Bool × List Char :=
      if c = '-' then (true, cs)
      else if c = '+' then (false, cs)
      else (false, c :: cs)
    match decDigits signed.2 with
    | none => none
    | some n =>
      let v : Int := if signed.1 then -(n : Int) else (n : Int)
      if -(2 ^ 63) ≤ v ∧ v ≤ 2 ^ 63 - 1 then some v else none

/-- The safety-buffer policy of `requestNewToken` (source lines computing
`effectiveExpires` from `expiresInInt` with `buffer = 60`); Go integer
division truncates toward zero, hence `Int.tdiv`. -/
def effectiveExpires (expiresInInt : Int) : Int :=
  let buffer : Int := 60
  if expiresInInt > buffer then expiresInInt - buffer
  else if expiresInInt > 1 then Int.tdiv expiresInInt 2
  else 1

/-- `TokenManager.getCachedToken`: read the cache file; on a read error or
an undecodable body return `""`; treat the record as stale when
`now > expiresAt`; otherwise promote it to the in-memory cache and return
its token. -/
def getCachedToken (s : TokenManagerState) (now : Int) : String × TokenManagerState :=
  match s.file with
  | .missing => ("", s)
  | .badJson => ("", s)
  | .record cached =>
    if now > cached.expiresAt then ("", s)
    else (cached.token, { s with memCache := some cached })

/-- `TokenManager.cacheToken`: marshal `{token, expiresAt, createdAt := now}`
and write it to the cache file (atomic temp-file-and-rename; the fallback
branches write the same bytes, so the post-state is the same record). -/
def cacheToken (s : TokenManagerState) (token : String) (expiresAt : Int) (now : Int) :
    TokenManagerState :=
  { s with file := .record { token := token, expiresAt := expiresAt, createdAt := now } }

/-- `TokenManager.requestNewToken`: GET the token endpoint with basic
authentication; fail on a transport error, a non-200 status, an
undecodable body, or an empty `access_token`; parse `expires_in` with a
300-second fallback; apply the buffer policy; store the new record in
memory and on disk. -/
def requestNewToken (s : TokenManagerState) (now : Int) (reply : AuthorityReply) :
    TokenResult × TokenManagerState :=
  match reply with
  | .transportError => (.error .transport, s)
  | .response status body =>
    if status ≠ 200 then (.error (.non200 status), s)
    else
      match body with
      | .undecodable => (.error .decodeFailed, s)
      | .fields accessToken expiresIn =>
        if accessToken = "" then (.error .emptyToken, s)
        else
          let expiresInInt := (parseInt64 expiresIn).getD 300
          let effective := effectiveExpires expiresInInt
          let expiresAt := now + effective
          let s1 : TokenManagerState :=
            { s with
              memCache := some { token := accessToken, expiresAt := expiresAt, createdAt := now } }
          (.ok accessToken, cacheToken s1 accessToken expiresAt now)

/-- The miss path of `GetToken` (after the in-memory check fails): consult
the file cache, then fall back to a remote acquisition.  The third
component counts calls to `requestNewToken`. -/
def GetTokenMiss (s : TokenManagerState) (now : Int) (reply : AuthorityReply) :
    TokenResult × TokenManagerState × Nat :=
  let fileRead := getCachedToken s now
  if fileRead.1 ≠ "" then (.ok fileRead.1, fileRead.2, 0)
  else
    let acquired := requestNewToken fileRead.2 now reply
    (acquired.1, acquired.2, 1)

/-- `TokenManager.GetToken` (one whole mutex-protected body): return the
in-memory token when `now < expiresAt`, else the file-cached token, else
acquire a new one. -/
def GetToken (s : TokenManagerState) (now : Int) (reply : AuthorityReply) :
    TokenResult × TokenManagerState × Nat :=
  match s.memCache with
  | some c =>
    if now < c.expiresAt then (.ok c.token, s, 0)
    else GetTokenMiss s now reply
  | none => GetTokenMiss s now reply

/-- `TokenManager.ClearCache` (one whole mutex-protected body): drop the
in-memory record; if `os.Stat` finds the cache file, remove it.  Errors of
the removal are ignored, so the operation has no failure outcome. -/
def ClearCache (s : TokenManagerState) : TokenManagerState :=
  let s1 : TokenManagerState := { s with memCache := none }
  match s1.file with
  | .missing => s1
  | .badJson => { s1 with file := .missing }
  | .record _ => { s1 with file := .missing }

/-- Sequential composition of `n` `GetToken` bodies against one shared
manager at one instant — the schedule the mutex forces on `n` concurrent
callers.  Returns all results, the final state, and the total number of
remote acquisitions. -/
def GetTokenRuns (now : Int) (reply : AuthorityReply) :
    TokenManagerState → Nat → List TokenResult × TokenManagerState × Nat
  | s, 0 => ([], s, 0)
  | s, n + 1 =>
    let first := GetToken s now reply
    let rest := GetTokenRuns now reply first.2.1 n
    (first.1 :: rest.1, rest.2.1, first.2.2 + rest.2.2)

/-- The decoded JSON response map of an operation endpoint, abstracted to
the one field `sendRequest` inspects: `errorMessage`, when present. -/
structure DecodedMap where
  errorMessage : Option String
deriving Repr, DecidableEq

/-- Body of one operation-endpoint HTTP response. -/
inductive RespBody where
  | undecodable
  | decoded (m : DecodedMap)
deriving Repr, DecidableEq

/-- Outcome of one POST attempt against the operation endpoint. -/
inductive HttpResult where
  | transportError
  | response (status : Nat) (body : RespBody)
deriving Repr, DecidableEq

/-- Classified errors of `ExecuteRequest`/`sendRequest`, in source order. -/
inductive CallError where
  | getTokenFailed (e : TokenError)
  | requestError
  | tokenRefreshFailed (e : TokenError)
  | decodeError
  | apiError (status : Nat) (msg : String)
deriving Repr, DecidableEq

/-- Result of a call: the decoded response map, or a classified error. -/
inductive CallResult where
  | ok (response : DecodedMap)
  | error (e : CallError)
deriving Repr, DecidableEq

/-- One POST actually sent: which payload with which bearer token. -/
structure SentRequest where
  payload : String
  token : String
deriving Repr, DecidableEq

/-- Everything observable about one `ExecuteRequest`/`sendRequest` run:
the returned value, the POSTs performed in order, the number of
`ClearCache` calls, the number of remote token acquisitions performed by
the 401-refresh path, and the final token-manager state. -/
structure CallOutcome where
  result : CallResult
  sends : List SentRequest
  invalidations : Nat
  acquisitions : Nat
  tmFinal : TokenManagerState
deriving Repr, DecidableEq

/-- Tail of `sendRequest` past the 401-retry check: decode the body, and
classify a status of at least 400 — except that the exact message
"The transaction is being processed" is returned as a success. -/
def classifyResponse (tm : TokenManagerState) (sent : List SentRequest)
    (inv acq : Nat) (status : Nat) (body : RespBody) : CallOutcome :=
  match body with
  | .undecodable => ⟨.error .decodeError, sent, inv, acq, tm⟩
  | .decoded response =>
    if status ≥ 400 then
      let msg :=
        match response.errorMessage with
        | some v => v
        | none => "Unknown error"
      if msg = "The transaction is being processed" then
        ⟨.ok response, sent, inv, acq, tm⟩
      else ⟨.error (.apiError status msg), sent, inv, acq, tm⟩
    else ⟨.ok response, sent, inv, acq, tm⟩

/-- `ApiClient.sendRequest` called with `isRetry = true`: the 401 branch is
disabled, so the attempt's outcome is classified directly. -/
def sendRequestRetry (tm : TokenManagerState) (payload token : String)
    (attempt : HttpResult) : CallOutcome :=
  match attempt with
  | .transportError => ⟨.error .requestError, [⟨payload, token⟩], 0, 0, tm⟩
  | .response status body => classifyResponse tm [⟨payload, token⟩] 0 0 status body

/-- `ApiClient.sendRequest` called with `isRetry = false`: POST the payload
with the bearer token; on a 401, clear the token cache, re-obtain a token
(`authReply` answers that refresh), and resend the same payload exactly
once with `isRetry = true`. -/
def sendRequest (tm : TokenManagerState) (now : Int) (authReply : AuthorityReply)
    (payload token : String) (attempt1 attempt2 : HttpResult) : CallOutcome :=
  match attempt1 with
  | .transportError => ⟨.error .requestError, [⟨payload, token⟩], 0, 0, tm⟩
  | .response status body =>
    if status = 401 then
      let tm1 := ClearCache tm
      let refreshed := GetToken tm1 now authReply
      match refreshed.1 with
      | .error e =>
        ⟨.error (.tokenRefreshFailed e), [⟨payload, token⟩], 1, refreshed.2.2, refreshed.2.1⟩
      | .ok newToken =>
        let retried := sendRequestRetry refreshed.2.1 payload newToken attempt2
        ⟨retried.result, ⟨payload, token⟩ :: retried.sends,
          1 + retried.invalidations, refreshed.2.2 + retried.acquisitions, retried.tmFinal⟩
    else classifyResponse tm [⟨payload, token⟩] 0 0 status body

/-- `ApiClient.ExecuteRequest`: obtain a token (`authReply1` answers an
acquisition performed here, `authReply2` one performed by a later
401 refresh), then run `sendRequest` with `isRetry = false`. -/
def ExecuteRequest (tm : TokenManagerState) (now : Int)
    (authReply1 authReply2 : AuthorityReply) (payload : String)
    (attempt1 attempt2 : HttpResult) : CallOutcome :=
  let got := GetToken tm now authReply1
  match got.1 with
  | .error e => ⟨.error (.getTokenFailed e), [], 0, 0, got.2.1⟩
  | .ok token => sendRequest got.2.1 now authReply2 payload token attempt1 attempt2

/-- The test the in-memory branch of `GetToken` performs: a record is
present and `now < expiresAt` (strict). -/
def memUsable (s : TokenManagerState) (now : Int) : Bool :=
  match s.memCache with
  | some c => decide (now < c.expiresAt)
  | none => false

/-- The test under which `getCachedToken` yields a usable token: the file
holds a record, it is not stale (`now ≤ expiresAt`, i.e. the negation of
the code's `now > expiresAt`), and its token is nonempty. -/
def fileUsable (s : TokenManagerState) (now : Int) : Bool :=
  match s.file with
  | .record c => decide (now ≤ c.expiresAt) && decide (c.token ≠ "")
  | _ => false

end GoMpesa

namespace GoMpesa

/-- The buffer policy always yields a strictly positive TTL. -/
theorem one_le_effectiveExpires (L : Int) : 1 ≤ effectiveExpires L := by
  simp only [effectiveExpires]
  split_ifs with h1 h2
  · omega
  · rw [Int.tdiv_eq_ediv (by omega) (by omega)]
    omega
  · omega

/-- For a reported lifetime of at least one second, the buffer policy
never exceeds the reported lifetime. -/
theorem effectiveExpires_le (L : Int) (h : 1 ≤ L) : effectiveExpires L ≤ L := by
  simp only [effectiveExpires]
  split_ifs with h1 h2
  · omega
  · rw [Int.tdiv_eq_ediv (by omega) (by omega)]
    omega
  · omega

/-- Claim C1, counterexample to the claim as stated: for the reported
lifetime L = 0 the stored TTL is 1 (stored expiry 1001 with now = 1000),
which is strictly greater than L, so the conjunct "the computed TTL is
always at most L" is false. -/
theorem c1_counterexample :
    (requestNewToken ⟨none, .missing⟩ 1000 (.response 200 (.fields "tok" "0"))).2.memCache =
      some ⟨"tok", 1001, 1000⟩ ∧
    parseInt64 "0" = some 0 ∧
    ¬ ((1001 : Int) - 1000 ≤ 0) := by
  refine ⟨by decide, by decide, by decide⟩

/-- Claim C1 (amended): for every remote lifetime string parsing to L, the
stored record has expiry now + effectiveExpires L, where effectiveExpires
is L - 60 for L > 60, L / 2 (truncated division) for 1 < L ≤ 60, and 1
otherwise; the TTL is always strictly positive, and it is at most L
whenever L ≥ 1 (not for L ≤ 0, where it is 1); in particular the TTL is
3540 for L = 3600, 15 for L = 30, 1 for L = 1 and 1 for L = 0. -/
theorem c1_ttl_policy (s : TokenManagerState) (now : Int) (tok e : String) (L : Int)
    (htok : tok ≠ "") (hparse : parseInt64 e = some L) :
    (requestNewToken s now (.response 200 (.fields tok e))).1 = .ok tok ∧
    (requestNewToken s now (.response 200 (.fields tok e))).2.memCache =
      some ⟨tok, now + effectiveExpires L, now⟩ ∧
    (requestNewToken s now (.response 200 (.fields tok e))).2.file =
      .record ⟨tok, now + effectiveExpires L, now⟩ ∧
    effectiveExpires L =
      (if L > 60 then L - 60 else if L > 1 then Int.tdiv L 2 else 1) ∧
    0 < effectiveExpires L ∧
    (1 ≤ L → effectiveExpires L ≤ L) ∧
    effectiveExpires 3600 = 3540 ∧ effectiveExpires 30 = 15 ∧
    effectiveExpires 1 = 1 ∧ effectiveExpires 0 = 1 := by
  refine ⟨?_, ?_, ?_, ?_, ?_, ?_, by decide, by decide, by decide, by decide⟩
  · simp [requestNewToken, htok, hparse]
  · simp [requestNewToken, cacheToken, htok, hparse]
  · simp [requestNewToken, cacheToken, htok, hparse]
  · rfl
  · exact lt_of_lt_of_le zero_lt_one (one_le_effectiveExpires L)
  · exact effectiveExpires_le L

/-- Witness for `c1_ttl_policy` at the concrete response
`{access_token: "tok", expires_in: "3600"}`. -/
theorem c1_ttl_policy_witness :
    (requestNewToken ⟨none, .missing⟩ 50 (.response 200 (.fields "tok" "3600"))).2.memCache =
      some ⟨"tok", 50 + effectiveExpires 3600, 50⟩ ∧
    0 < effectiveExpires 3600 := by
  have h := c1_ttl_policy ⟨none, .missing⟩ 50 "tok" "3600" 3600 (by decide) (by decide)
  exact ⟨h.2.1, h.2.2.2.2.1⟩

end GoMpesa

namespace GoMpesa

/-- Unfolding of `memUsable`. -/
theorem memUsable_iff (s : TokenManagerState) (now : Int) :
    memUsable s now = true ↔ ∃ c, s.memCache = some c ∧ now < c.expiresAt := by
  obtain ⟨mc, f⟩ := s
  cases mc <;> simp [memUsable]

/-- Unfolding of `fileUsable`. -/
theorem fileUsable_iff (s : TokenManagerState) (now : Int) :
    fileUsable s now = true ↔
      ∃ c, s.file = .record c ∧ now ≤ c.expiresAt ∧ c.token ≠ "" := by
  obtain ⟨mc, f⟩ := s
  cases f <;> simp [fileUsable]

/-- A valid in-memory record short-circuits `GetToken`. -/
theorem getToken_memHit (s : TokenManagerState) (now : Int) (reply : AuthorityReply)
    (c : tokenCache) (hc : s.memCache = some c) (hlt : now < c.expiresAt) :
    GetToken s now reply = (.ok c.token, s, 0) := by
  simp [GetToken, hc, hlt]

/-- Without a valid in-memory record, `GetToken` runs its miss path. -/
theorem getToken_memMiss (s : TokenManagerState) (now : Int) (reply : AuthorityReply)
    (h : memUsable s now = false) :
    GetToken s now reply = GetTokenMiss s now reply := by
  obtain ⟨mc, f⟩ := s
  cases mc with
  | none => rfl
  | some c =>
    simp [memUsable] at h
    simp [GetToken, h]

/-- Behaviour of the miss path: a usable file record is promoted and
returned with no acquisition; otherwise exactly one acquisition runs,
from the state `getCachedToken` left behind. -/
theorem getTokenMiss_spec (s : TokenManagerState) (now : Int) (reply : AuthorityReply) :
    (∀ c, s.file = .record c → now ≤ c.expiresAt → c.token ≠ "" →
      GetTokenMiss s now reply = (.ok c.token, { s with memCache := some c }, 0)) ∧
    (fileUsable s now = false →
      GetTokenMiss s now reply =
        ((requestNewToken (getCachedToken s now).2 now reply).1,
         (requestNewToken (getCachedToken s now).2 now reply).2, 1)) := by
  obtain ⟨mc, f⟩ := s
  constructor
  · intro c hc hle htok
    cases f with
    | missing => exact absurd hc (by simp)
    | badJson => exact absurd hc (by simp)
    | record c2 =>
      have hcc : c2 = c := by
        simpa using hc
      subst hcc
      have hgt : ¬ now > c2.expiresAt := by omega
      simp [GetTokenMiss, getCachedToken, hgt, htok]
  · intro hfu
    cases f with
    | missing => rfl
    | badJson => rfl
    | record c2 =>
      simp [fileUsable] at hfu
      by_cases hgt : now > c2.expiresAt
      · simp [GetTokenMiss, getCachedToken, hgt]
      · have htok : c2.token = "" := hfu (by omega)
        simp [GetTokenMiss, getCachedToken, hgt, htok]

end GoMpesa

namespace GoMpesa

/-- Claim C5, counterexample to the claim as stated: at the instant
`now = 100`, which is not strictly before the expiry instant 100, the
file-cached credential is still returned by `GetToken` (the file check
uses `now > expiresAt`, not `now ≥ expiresAt`), so "returns it if and only
if the current time is strictly before its expiry instant" is false. -/
theorem c5_counterexample :
    GetToken ⟨none, .record ⟨"tok", 100, 0⟩⟩ 100 .transportError =
      (.ok "tok", ⟨some ⟨"tok", 100, 0⟩, .record ⟨"tok", 100, 0⟩⟩, 0) ∧
    ¬ ((100 : Int) < 100) := by
  refine ⟨by decide, by decide⟩

/-- Claim C5 (amended): `GetToken` returns a cached credential without a
remote acquisition exactly when the in-memory record satisfies the strict
test `now < expiresAt`, or the file record satisfies the non-strict test
`now ≤ expiresAt` and has a nonempty token; a valid in-memory record is
returned unchanged, a valid file record is promoted to memory and
returned; in every other case the fresh-acquisition path runs. -/
theorem c5_usability (s : TokenManagerState) (now : Int) (reply : AuthorityReply) :
    ((GetToken s now reply).2.2 = 0 ↔ (memUsable s now || fileUsable s now) = true) ∧
    (∀ c, s.memCache = some c → now < c.expiresAt →
      GetToken s now reply = (.ok c.token, s, 0)) ∧
    (∀ c, memUsable s now = false → s.file = .record c → now ≤ c.expiresAt →
      c.token ≠ "" →
      GetToken s now reply = (.ok c.token, { s with memCache := some c }, 0)) := by
  refine ⟨?_, ?_, ?_⟩
  · by_cases hmem : memUsable s now = true
    · obtain ⟨c, hc, hlt⟩ := (memUsable_iff s now).1 hmem
      rw [getToken_memHit s now reply c hc hlt]
      simp [hmem]
    · have hmem' : memUsable s now = false := by
        simpa using hmem
      rw [getToken_memMiss s now reply hmem']
      by_cases hfu : fileUsable s now = true
      · obtain ⟨c, hc, hle, htok⟩ := (fileUsable_iff s now).1 hfu
        rw [(getTokenMiss_spec s now reply).1 c hc hle htok]
        simp [hmem', hfu]
      · have hfu' : fileUsable s now = false := by
          simpa using hfu
        rw [(getTokenMiss_spec s now reply).2 hfu']
        simp [hmem', hfu']
  · intro c hc hlt
    exact getToken_memHit s now reply c hc hlt
  · intro c hmem hc hle htok
    rw [getToken_memMiss s now reply hmem]
    exact (getTokenMiss_spec s now reply).1 c hc hle htok

/-- Witness for `c5_usability`: an expired in-memory record together with
a still-valid file record leads to the file record being promoted. -/
theorem c5_usability_witness :
    GetToken ⟨some ⟨"old", 10, 0⟩, .record ⟨"disk", 90, 0⟩⟩ 50 .transportError =
      (.ok "disk", ⟨some ⟨"disk", 90, 0⟩, .record ⟨"disk", 90, 0⟩⟩, 0) := by
  have h := (c5_usability ⟨some ⟨"old", 10, 0⟩, .record ⟨"disk", 90, 0⟩⟩ 50
      .transportError).2.2 ⟨"disk", 90, 0⟩ (by decide) rfl (by decide) (by decide)
  exact h

/-- Claim C7: every failing run of the acquisition path (transport error,
non-200 authority status, undecodable body, or empty token) leaves the
token-manager state — in-memory record and cache file — exactly as it
was. -/
theorem c7_no_partial_state (s : TokenManagerState) (now : Int) (reply : AuthorityReply)
    (e : TokenError) (h : (requestNewToken s now reply).1 = .error e) :
    (requestNewToken s now reply).2 = s := by
  cases reply with
  | transportError => rfl
  | response status body =>
    by_cases h200 : status = 200
    · subst h200
      cases body with
      | undecodable => simp [requestNewToken]
      | fields tok ein =>
        by_cases htok : tok = ""
        · subst htok
          simp [requestNewToken]
        · simp [requestNewToken, htok] at h
    · simp [requestNewToken, h200]

/-- Witness for `c7_no_partial_state` at a transport failure over a
populated state. -/
theorem c7_no_partial_state_witness :
    (requestNewToken ⟨some ⟨"t", 5, 1⟩, .badJson⟩ 9 .transportError).2 =
      ⟨some ⟨"t", 5, 1⟩, .badJson⟩ :=
  c7_no_partial_state ⟨some ⟨"t", 5, 1⟩, .badJson⟩ 9 .transportError .transport rfl

/-- Claim C8: an unexpired persisted record with a nonempty token, read by
a fresh manager instance (empty memory, same derived cache path hence the
same file), is returned with the identical token and expiry and with no
remote acquisition — whatever the authority would answer. -/
theorem c8_roundtrip (c : tokenCache) (now : Int) (reply : AuthorityReply)
    (htok : c.token ≠ "") (hvalid : now < c.expiresAt) :
    GetToken ⟨none, .record c⟩ now reply = (.ok c.token, ⟨some c, .record c⟩, 0) := by
  rw [getToken_memMiss ⟨none, .record c⟩ now reply (by simp [memUsable])]
  exact (getTokenMiss_spec ⟨none, .record c⟩ now reply).1 c rfl (by omega) htok

/-- Witness for `c8_roundtrip`: the reply is a transport failure, so the
returned credential demonstrably required no remote round-trip. -/
theorem c8_roundtrip_witness :
    GetToken ⟨none, .record ⟨"tok", 100, 0⟩⟩ 50 .transportError =
      (.ok "tok", ⟨some ⟨"tok", 100, 0⟩, .record ⟨"tok", 100, 0⟩⟩, 0) :=
  c8_roundtrip ⟨"tok", 100, 0⟩ 50 .transportError (by decide) (by decide)

/-- Claim C9: `ClearCache` unconditionally empties the in-memory cache and
removes the cache file (it is a total function, never an error),
applying it twice equals applying it once, and the next `GetToken`
always performs exactly one remote acquisition and can only return the
token granted by that fresh acquisition, never a previously cached one. -/
theorem c9_invalidate :
    (∀ s, ClearCache s = ⟨none, .missing⟩) ∧
    (∀ s, ClearCache (ClearCache s) = ClearCache s) ∧
    (∀ s now reply, (GetToken (ClearCache s) now reply).2.2 = 1) ∧
    (∀ s now reply t, (GetToken (ClearCache s) now reply).1 = .ok t →
      ∃ ein, reply = .response 200 (.fields t ein)) := by
  have hclear : ∀ s, ClearCache s = ⟨none, .missing⟩ := by
    intro s
    obtain ⟨mc, f⟩ := s
    cases f <;> rfl
  refine ⟨hclear, ?_, ?_, ?_⟩
  · intro s
    rw [hclear, hclear]
  · intro s now reply
    rw [hclear]
    rfl
  · intro s now reply t h
    rw [hclear] at h
    cases reply with
    | transportError => simp [GetToken, GetTokenMiss, getCachedToken, requestNewToken] at h
    | response status body =>
      by_cases h200 : status = 200
      · subst h200
        cases body with
        | undecodable =>
          simp [GetToken, GetTokenMiss, getCachedToken, requestNewToken] at h
        | fields tok ein =>
          by_cases htok : tok = ""
          · subst htok
            simp [GetToken, GetTokenMiss, getCachedToken, requestNewToken] at h
          · simp [GetToken, GetTokenMiss, getCachedToken, requestNewToken, htok] at h
            exact ⟨ein, by rw [h]⟩
      · simp [GetToken, GetTokenMiss, getCachedToken, requestNewToken, h200] at h

/-- Witness for `c9_invalidate`: after clearing a cache that still held a
valid token, `GetToken` returns the token of the fresh authority reply. -/
theorem c9_invalidate_witness :
    ∃ ein, (.response 200 (.fields "new" "3600") : AuthorityReply) =
      .response 200 (.fields "new" ein) :=
  c9_invalidate.2.2.2 ⟨some ⟨"old", 999, 0⟩, .record ⟨"old", 999, 0⟩⟩ 5
    (.response 200 (.fields "new" "3600")) "new" (by decide)

/-- Claim C10: when the in-memory record is not usable and the cache file
is absent, unreadable, or undecodable, `GetToken` raises no cache error:
it behaves exactly as one fresh remote acquisition from the same state
(result and post-state those of `requestNewToken`). -/
theorem c10_cache_fallthrough (s : TokenManagerState) (now : Int) (reply : AuthorityReply)
    (hmem : memUsable s now = false) (hfile : s.file = .missing ∨ s.file = .badJson) :
    GetToken s now reply =
      ((requestNewToken s now reply).1, (requestNewToken s now reply).2, 1) := by
  rw [getToken_memMiss s now reply hmem]
  have hfu : fileUsable s now = false := by
    obtain ⟨mc, f⟩ := s
    rcases hfile with h | h <;> simp at h <;> subst h <;> simp [fileUsable]
  rw [(getTokenMiss_spec s now reply).2 hfu]
  obtain ⟨mc, f⟩ := s
  rcases hfile with h | h <;> simp at h <;> subst h <;> rfl

/-- Witness for `c10_cache_fallthrough`: an undecodable cache file with a
failing authority gives exactly the acquisition's transport error. -/
theorem c10_cache_fallthrough_witness :
    GetToken ⟨none, .badJson⟩ 0 .transportError =
      (.error .transport, ⟨none, .badJson⟩, 1) :=
  c10_cache_fallthrough ⟨none, .badJson⟩ 0 .transportError rfl (Or.inr rfl)

end GoMpesa

namespace GoMpesa

/-- Claim C6, counterexample to the claim as stated: the authority body
decodes with access token "abc" while its expires-in field "oops" does not
parse as an integer, yet the acquisition succeeds — the lifetime silently
defaults to 300 seconds (stored TTL 240 after the buffer) and a credential
is returned, not an error. -/
theorem c6_counterexample :
    parseInt64 "oops" = none ∧
    (requestNewToken ⟨none, .missing⟩ 1000 (.response 200 (.fields "abc" "oops"))).1 =
      .ok "abc" ∧
    (requestNewToken ⟨none, .missing⟩ 1000 (.response 200 (.fields "abc" "oops"))).2.memCache =
      some ⟨"abc", 1240, 1000⟩ := by
  refine ⟨by decide, by decide, by decide⟩

/-- Claim C6 (amended): the acquisition fails when the authority body is
undecodable (`decodeFailed`) or carries an empty access token
(`emptyToken`); but when a nonempty access token is present and only the
expires-in field fails to parse as an integer, the lifetime falls back to
the default 300 seconds (stored TTL 240) and a credential is returned
without error. -/
theorem c6_malformed_response (s : TokenManagerState) (now : Int) (tok ein : String)
    (htok : tok ≠ "") (hparse : parseInt64 ein = none) :
    (requestNewToken s now (.response 200 .undecodable)).1 = .error .decodeFailed ∧
    (requestNewToken s now (.response 200 (.fields "" ein))).1 = .error .emptyToken ∧
    (requestNewToken s now (.response 200 (.fields tok ein))).1 = .ok tok ∧
    (requestNewToken s now (.response 200 (.fields tok ein))).2.memCache =
      some ⟨tok, now + 240, now⟩ := by
  have h240 : effectiveExpires 300 = 240 := by decide
  refine ⟨by simp [requestNewToken], by simp [requestNewToken], ?_, ?_⟩
  · simp [requestNewToken, htok, hparse]
  · simp [requestNewToken, cacheToken, htok, hparse, h240]

/-- Witness for `c6_malformed_response` at the concrete body
`{access_token: "abc", expires_in: "oops"}`. -/
theorem c6_malformed_response_witness :
    (requestNewToken ⟨none, .missing⟩ 1000 (.response 200 (.fields "abc" "oops"))).2.memCache =
      some ⟨"abc", 1000 + 240, 1000⟩ :=
  (c6_malformed_response ⟨none, .missing⟩ 1000 "abc" "oops" (by decide) (by decide)).2.2.2

/-- Once a valid record sits in memory, every further serialized
`GetToken` body returns it unchanged with no acquisition. -/
theorem getTokenRuns_memHit (now : Int) (reply : AuthorityReply) (s : TokenManagerState)
    (c : tokenCache) (hc : s.memCache = some c) (hlt : now < c.expiresAt) :
    ∀ n, GetTokenRuns now reply s n = (List.replicate n (.ok c.token), s, 0) := by
  intro n
  induction n with
  | zero => rfl
  | succ m ih =>
    simp [GetTokenRuns, getToken_memHit s now reply c hc hlt, ih, List.replicate_succ]

/-- Claim C4: the mutex serialises concurrent `GetToken` callers into some
sequence of whole bodies; for any number n ≥ 1 of such callers hitting an
empty cache at one instant, with the authority granting a nonempty token,
exactly one remote acquisition happens in total and every caller receives
that same token. -/
theorem c4_single_acquisition (n : Nat) (now : Int) (tok ein : String)
    (htok : tok ≠ "") (hn : 1 ≤ n) :
    (GetTokenRuns now (.response 200 (.fields tok ein)) ⟨none, .missing⟩ n).2.2 = 1 ∧
    ∀ r ∈ (GetTokenRuns now (.response 200 (.fields tok ein)) ⟨none, .missing⟩ n).1,
      r = .ok tok := by
  obtain ⟨m, rfl⟩ : ∃ m, n = m + 1 := ⟨n - 1, by omega⟩
  set L : Int := (parseInt64 ein).getD 300 with hL
  set c : tokenCache := ⟨tok, now + effectiveExpires L, now⟩ with hc
  have hfirst : GetToken ⟨none, .missing⟩ now (.response 200 (.fields tok ein)) =
      (.ok tok, ⟨some c, .record c⟩, 1) := by
    rw [getToken_memMiss ⟨none, .missing⟩ now _ rfl,
      (getTokenMiss_spec ⟨none, .missing⟩ now _).2 rfl]
    simp [requestNewToken, getCachedToken, cacheToken, htok, hc, hL]
  have hexp : now < c.expiresAt := by
    have := one_le_effectiveExpires L
    simp [hc]
    omega
  have hrest := getTokenRuns_memHit now (.response 200 (.fields tok ein))
    ⟨some c, .record c⟩ c rfl hexp m
  constructor
  · simp [GetTokenRuns, hfirst, hrest]
  · intro r hr
    simp [GetTokenRuns, hfirst, hrest] at hr
    rcases hr with h | h
    · exact h
    · exact h.2

/-- Witness for `c4_single_acquisition`: three serialized callers, one
acquisition, all three receive the granted token. -/
theorem c4_single_acquisition_witness :
    (GetTokenRuns 0 (.response 200 (.fields "T" "3600")) ⟨none, .missing⟩ 3).2.2 = 1 ∧
    ∀ r ∈ (GetTokenRuns 0 (.response 200 (.fields "T" "3600")) ⟨none, .missing⟩ 3).1,
      r = .ok "T" :=
  c4_single_acquisition 3 0 "T" "3600" (by decide) (by decide)

end GoMpesa

namespace GoMpesa

/-- `classifyResponse` never adds sends, invalidations or acquisitions. -/
theorem classifyResponse_fields (tm : TokenManagerState) (sent : List SentRequest)
    (inv acq status : Nat) (body : RespBody) :
    (classifyResponse tm sent inv acq status body).sends = sent ∧
    (classifyResponse tm sent inv acq status body).invalidations = inv ∧
    (classifyResponse tm sent inv acq status body).acquisitions = acq := by
  cases body with
  | undecodable => exact ⟨rfl, rfl, rfl⟩
  | decoded m =>
    simp only [classifyResponse]
    split_ifs <;> exact ⟨rfl, rfl, rfl⟩

/-- A retried attempt performs exactly one POST and neither invalidates
nor acquires. -/
theorem sendRequestRetry_fields (tm : TokenManagerState) (payload token : String)
    (attempt : HttpResult) :
    (sendRequestRetry tm payload token attempt).sends = [⟨payload, token⟩] ∧
    (sendRequestRetry tm payload token attempt).invalidations = 0 ∧
    (sendRequestRetry tm payload token attempt).acquisitions = 0 := by
  cases attempt with
  | transportError => exact ⟨rfl, rfl, rfl⟩
  | response status body =>
    simpa [sendRequestRetry] using
      classifyResponse_fields tm [⟨payload, token⟩] 0 0 status body

/-- `ClearCache` always reaches the empty state. -/
theorem clearCache_eq (s : TokenManagerState) : ClearCache s = ⟨none, .missing⟩ := by
  obtain ⟨mc, f⟩ := s
  cases f <;> rfl

/-- A `GetToken` right after `ClearCache` always performs exactly one
remote acquisition attempt. -/
theorem getToken_cleared_acquires (s : TokenManagerState) (now : Int)
    (reply : AuthorityReply) : (GetToken (ClearCache s) now reply).2.2 = 1 := by
  rw [clearCache_eq]
  rfl

/-- Claim C2, counterexample to the claim as stated: both the original and
the retried attempt answer 401, yet the call does not fail — the retried
401 body carries the pending-transaction sentinel message, and
`sendRequest` classifies the retried status through the same sentinel
branch, returning the decoded body as a success.  (Two POSTs are sent, so
the no-third-send part does hold here.) -/
theorem c2_counterexample :
    (ExecuteRequest ⟨none, .missing⟩ 0 (.response 200 (.fields "T" "3600"))
        (.response 200 (.fields "T2" "3600")) "P"
        (.response 401 (.decoded ⟨some "x"⟩))
        (.response 401 (.decoded ⟨some "The transaction is being processed"⟩))).result =
      .ok ⟨some "The transaction is being processed"⟩ ∧
    (ExecuteRequest ⟨none, .missing⟩ 0 (.response 200 (.fields "T" "3600"))
        (.response 200 (.fields "T2" "3600")) "P"
        (.response 401 (.decoded ⟨some "x"⟩))
        (.response 401 (.decoded ⟨some "The transaction is being processed"⟩))).sends =
      [⟨"P", "T"⟩, ⟨"P", "T2"⟩] := by
  refine ⟨by decide, by decide⟩

/-- Claim C2 (amended): a call never performs more than two POSTs; a 401
on the first attempt with a successful token refresh causes exactly one
invalidation, exactly one re-acquisition, and exactly one resend of the
same payload under the new token; and a 401 on the retried attempt is
surfaced as an error — `apiError` for a decodable body whose error
message is not the pending-transaction sentinel, `decodeError` for an
undecodable body — the sentinel case being returned as a success. -/
theorem c2_single_retry :
    (∀ tm now aR1 aR2 payload a1 a2,
      (ExecuteRequest tm now aR1 aR2 payload a1 a2).sends.length ≤ 2) ∧
    (∀ tm now aR2 payload token b1 a2 t2,
      (GetToken (ClearCache tm) now aR2).1 = .ok t2 →
      (sendRequest tm now aR2 payload token (.response 401 b1) a2).invalidations = 1 ∧
      (sendRequest tm now aR2 payload token (.response 401 b1) a2).acquisitions = 1 ∧
      (sendRequest tm now aR2 payload token (.response 401 b1) a2).sends =
        [⟨payload, token⟩, ⟨payload, t2⟩]) ∧
    (∀ tm now aR2 payload token b1 t2 m2,
      (GetToken (ClearCache tm) now aR2).1 = .ok t2 →
      m2.errorMessage ≠ some "The transaction is being processed" →
      (sendRequest tm now aR2 payload token (.response 401 b1)
          (.response 401 (.decoded m2))).result =
        .error (.apiError 401 (m2.errorMessage.getD "Unknown error"))) ∧
    (∀ tm now aR2 payload token b1 t2,
      (GetToken (ClearCache tm) now aR2).1 = .ok t2 →
      (sendRequest tm now aR2 payload token (.response 401 b1)
          (.response 401 .undecodable)).result = .error .decodeError) := by
  refine ⟨?_, ?_, ?_, ?_⟩
  · intro tm now aR1 aR2 payload a1 a2
    cases hg : (GetToken tm now aR1).1 with
    | error e => simp [ExecuteRequest, hg]
    | ok token =>
      simp only [ExecuteRequest, hg]
      cases a1 with
      | transportError => simp [sendRequest]
      | response st b =>
        by_cases h401 : st = 401
        · subst h401
          cases hr : (GetToken (ClearCache ((GetToken tm now aR1).2.1)) now aR2).1 with
          | error e => simp [sendRequest, hr]
          | ok t2 =>
            have hsr := (sendRequestRetry_fields
              ((GetToken (ClearCache ((GetToken tm now aR1).2.1)) now aR2).2.1)
              payload t2 a2).1
            simp [sendRequest, hr, hsr]
        · have hcf := (classifyResponse_fields ((GetToken tm now aR1).2.1)
            [⟨payload, token⟩] 0 0 st b).1
          simp [sendRequest, h401, hcf]
  · intro tm now aR2 payload token b1 a2 t2 h
    have hsr := sendRequestRetry_fields ((GetToken (ClearCache tm) now aR2).2.1)
      payload t2 a2
    have hacq := getToken_cleared_acquires tm now aR2
    refine ⟨?_, ?_, ?_⟩ <;>
      simp [sendRequest, h, hsr.1, hsr.2.1, hsr.2.2, hacq]
  · intro tm now aR2 payload token b1 t2 m2 h hms
    cases hm : m2.errorMessage with
    | none =>
      have hne : ("Unknown error" : String) ≠ "The transaction is being processed" := by
        decide
      simp [sendRequest, h, sendRequestRetry, classifyResponse, hm, hne]
    | some v =>
      have hv : v ≠ "The transaction is being processed" := by
        intro hv
        exact hms (by rw [hm, hv])
      simp [sendRequest, h, sendRequestRetry, classifyResponse, hm, hv]
  · intro tm now aR2 payload token b1 t2 h
    simp [sendRequest, h, sendRequestRetry, classifyResponse]

/-- Witness for `c2_single_retry`: a double 401 with an ordinary error
body fails with the remote message and no third send. -/
theorem c2_single_retry_witness :
    (sendRequest ⟨none, .missing⟩ 0 (.response 200 (.fields "T2" "3600")) "P" "T"
        (.response 401 (.decoded ⟨some "x"⟩))
        (.response 401 (.decoded ⟨some "y"⟩))).result =
      .error (.apiError 401 "y") := by
  have h := c2_single_retry.2.2.1 ⟨none, .missing⟩ 0 (.response 200 (.fields "T2" "3600"))
    "P" "T" (.decoded ⟨some "x"⟩) "T2" ⟨some "y"⟩ (by decide) (by decide)
  simpa using h

/-- Claim C3: whenever the attempt that decides the call's outcome (the
first attempt when its status is not 401, or the retried attempt for any
status) answers with status at least 400 and a decoded body whose error
message equals exactly "The transaction is being processed", the call
returns that decoded body as a successful result, not an error. -/
theorem c3_pending_sentinel (tm : TokenManagerState) (now : Int)
    (authReply : AuthorityReply) (payload token : String) (st : Nat) (m : DecodedMap)
    (attempt2 : HttpResult) (hst : st ≥ 400) (h401 : st ≠ 401)
    (hmsg : m.errorMessage = some "The transaction is being processed") :
    (sendRequest tm now authReply payload token
        (.response st (.decoded m)) attempt2).result = .ok m ∧
    (∀ tm2 p2 t2 st2 m2, st2 ≥ 400 →
      DecodedMap.errorMessage m2 = some "The transaction is being processed" →
      (sendRequestRetry tm2 p2 t2 (.response st2 (.decoded m2))).result = .ok m2) := by
  constructor
  · simp [sendRequest, h401, classifyResponse, hst, hmsg]
  · intro tm2 p2 t2 st2 m2 hst2 hmsg2
    simp [sendRequestRetry, classifyResponse, hst2, hmsg2]

/-- Witness for `c3_pending_sentinel` at a 500 response carrying the
sentinel body. -/
theorem c3_pending_sentinel_witness :
    (sendRequest ⟨none, .missing⟩ 0 .transportError "P" "T"
        (.response 500 (.decoded ⟨some "The transaction is being processed"⟩))
        .transportError).result =
      .ok ⟨some "The transaction is being processed"⟩ :=
  (c3_pending_sentinel ⟨none, .missing⟩ 0 .transportError "P" "T" 500
    ⟨some "The transaction is being processed"⟩ .transportError
    (by decide) (by decide) rfl).1

end GoMpesa
